import Mathlib

/-!
Shallow embedding of the coordination core of `matrixtui` (src/app.rs),
restricted to the state fields and operations that the verified
properties touch.  Rust `Vec` becomes `List`, `HashMap` becomes a total
function with `[]` / `none` default (the code never distinguishes a
missing key from an empty entry), `u64`/`usize` become `Nat`, and every
external call (the Matrix backend, the terminal, the config file on
disk) becomes an explicit argument carrying the value the call returned.
-/

namespace Matrixtui

/-- Overlay enum from src/app.rs (`pub enum Overlay`). -/
inductive Overlay where
  | none
  | login
  | help
  | roomSwitcher
  | settings
  | profileEditor
  | roomCreator
  | roomEditor
  | recovery
  | messageAction
  | sasVerify
  | emojiPicker
  | roomInfo
deriving DecidableEq, Repr

/-- State of the SAS verification overlay (`pub enum SasOverlayState`). -/
inductive SasOverlayState where
  | waiting
  | incoming
  | emojis
  | confirming
  | done
  | failed
deriving DecidableEq, Repr

/-- Room sort modes (`pub enum RoomSortMode`). -/
inductive RoomSortMode where
  | unread
  | recent
  | alpha
deriving DecidableEq, Repr

/-- The two fields of `Account` (src/account.rs) that the modelled
operations read: `user_id` and `homeserver`. -/
structure Account where
  user_id : String
  homeserver : String
deriving DecidableEq, Repr

/-- `RoomInfo` from src/account.rs. -/
structure RoomInfo where
  id : String
  name : String
  is_dm : Bool
  unread : Nat
  account_id : String
deriving DecidableEq, Repr

/-- `DisplayMessage` from src/app.rs, field for field. -/
structure DisplayMessage where
  event_id : Option String
  sender : String
  body : String
  timestamp : Nat
  reply_to_sender : Option String
  reply_to_body : Option String
  reply_to_event_id_raw : Option String
  reactions : List (String × Nat)
deriving DecidableEq, Repr

/-- The `MatrixEvent` variants (src/account.rs) that the verified
properties exercise.  The opaque `SasVerification` handle carried by
`SasStarted` is modelled as a `Nat` identifier. -/
inductive MatrixEvent where
  | message (room_id sender body : String) (timestamp : Nat)
      (event_id : String) (reply_to_event_id : Option String)
  | sasStarted (flow_id : String) (sas : Nat)
  | sasEmojis (flow_id : String) (emojis : List (String × String))
  | sasDone (flow_id : String)
  | sasCancelled (flow_id reason : String)
deriving DecidableEq, Repr

/-- Key codes (crossterm `KeyCode`) used by the modelled key handlers. -/
inductive KeyCode where
  | tab
  | backTab
  | enter
  | esc
  | backspace
  | charKey (c : Char)
  | other
deriving DecidableEq, Repr

/-- A key event; the modelled handlers only inspect `code`. -/
structure KeyEvent where
  code : KeyCode
deriving DecidableEq, Repr

/-- The subset of `pub struct App` (src/app.rs) read or written by the
modelled operations.  `room_messages` and `room_history_tokens` are the
two `HashMap`s, embedded as total functions (`room_messages` defaults to
`[]`, `room_history_tokens` to `none` = key absent). -/
structure App where
  accounts : List Account
  overlay : Overlay
  messages : List DisplayMessage
  scroll_offset : Nat
  room_messages : String → List DisplayMessage
  pending_echoes : List String
  active_room : Option String
  active_account_id : Option String
  status_msg : String
  all_rooms : List RoomInfo
  selected_room : Nat
  favorites_count : Nat
  room_sort : RoomSortMode
  config_favorites : List String
  config_saved : List String
  selected_message : Option Nat
  room_history_tokens : String → Option (Option String)
  login_homeserver : String
  login_username : String
  login_password : String
  login_focus : Nat
  login_error : Option String
  login_busy : Bool
  creator_busy : Bool
  editor_busy : Bool
  profile_busy : Bool
  recovery_busy : Bool
  message_edit_busy : Bool
  sas_state : SasOverlayState
  sas_emojis : List (String × String)
  sas_error : Option String
  sas_account_idx : Nat
  sas_flow_id : Option String
  sas_user_id : Option String
  sas_handle : Option Nat

/-! ## The 50-byte reply snippet

src/app.rs computes, in three places (`resolve_reply_context`,
`resolve_all_replies`, and the reply shortcut in `handle_chat_key`):

  `if body.len() > 50 { format!("{}...", &body[..50]) } else { body }`

`body.len()` is the UTF-8 byte length and `&body[..50]` is a byte-index
slice, which panics in Rust when byte 50 is not a character boundary.
`snippetPanics` decides exactly that panic condition; `snippet` is the
value the Rust expression produces when it does not panic (on a
panicking input this total model instead keeps the longest character
prefix that fits in 50 bytes, a case `snippetPanics` flags). -/

/-- UTF-8 byte length of a string (Rust `str::len`). -/
def utf8Len (s : String) : Nat := s.utf8ByteSize

/-- Whether byte index `n` is a character boundary of the UTF-8
encoding of the character list `cs`. -/
def isBoundary : List Char → Nat → Bool
  | _, 0 => true
  | [], _ + 1 => false
  | c :: cs, n + 1 =>
    if c.utf8Size ≤ n + 1 then isBoundary cs (n + 1 - c.utf8Size) else false

/-- The characters of `cs` that lie entirely within the first `n`
bytes of its UTF-8 encoding. -/
def takeBytes : List Char → Nat → List Char
  | _, 0 => []
  | [], _ + 1 => []
  | c :: cs, n + 1 =>
    if c.utf8Size ≤ n + 1 then c :: takeBytes cs (n + 1 - c.utf8Size) else []

/-- True exactly when the Rust snippet computation panics on `s`:
the body is longer than 50 bytes and byte 50 is not a character
boundary, so `&body[..50]` aborts the program. -/
def snippetPanics (s : String) : Bool :=
  if 50 < utf8Len s then !(isBoundary s.data 50) else false

/-- The 50-byte-truncated reply snippet (value of the Rust expression
when it does not panic; see `snippetPanics`). -/
def snippet (s : String) : String :=
  if 50 < utf8Len s then String.mk (takeBytes s.data 50) ++ "..." else s

/-! ## Message reconciler (src/app.rs) -/

/-- `App::resolve_reply_context`: look up a message by event id, first
in the displayed list, then in the per-room cache, and return
`(sender, snippet)` when found. -/
def resolve_reply_context (st : App) (room_id reply_event_id : String) :
    Option String × Option String :=
  let found :=
    match st.messages.find? (fun m => m.event_id = some reply_event_id) with
    | some m => some m
    | none =>
      (st.room_messages room_id).find? (fun m => m.event_id = some reply_event_id)
  match found with
  | some orig => (some orig.sender, some (snippet orig.body))
  | none => (none, none)

/-- One step of the id → (sender, snippet) index build in
`App::resolve_all_replies`: a message with an event id installs its
entry (overwriting an earlier one, as the `HashMap` collect does). -/
def replyStep (acc : String → Option (String × String)) (m : DisplayMessage) :
    String → Option (String × String) :=
  match m.event_id with
  | some eid => fun k => if k = eid then some (m.sender, snippet m.body) else acc k
  | none => acc

/-- The id → (sender, snippet) index that `App::resolve_all_replies`
builds from messages that carry an event id (`HashMap` collect: a later
message with the same event id wins). -/
def replyIndex (messages : List DisplayMessage) :
    String → Option (String × String) :=
  messages.foldl replyStep (fun _ => none)

/-- `App::resolve_all_replies`: fill in `reply_to_sender` and
`reply_to_body` for every message whose reply target is now in the
index. -/
def resolve_all_replies (messages : List DisplayMessage) : List DisplayMessage :=
  let index := replyIndex messages
  messages.map (fun m =>
    if m.reply_to_sender = none then
      match m.reply_to_event_id_raw with
      | some reid =>
        match index reid with
        | some p => { m with reply_to_sender := some p.1, reply_to_body := some p.2 }
        | none => m
      | none => m
    else m)

/-- `App::send_current_message`.  `sendOk` is the result of the
external `account.send_message` call; `now` is the wall-clock
timestamp.  On success the local echo (`event_id = none`) is pushed to
the displayed list and the room cache and the body is registered in the
pending-echo set. -/
def send_current_message (sendOk : Bool) (now : Nat) (body : String) (st : App) : App :=
  match st.active_room, st.active_account_id with
  | some room_id, some account_id =>
    match st.accounts.find? (fun a => a.user_id = account_id) with
    | some account =>
      if sendOk then
        let msg : DisplayMessage :=
          { event_id := none
            sender := account.user_id
            body := body
            timestamp := now
            reply_to_sender := none
            reply_to_body := none
            reply_to_event_id_raw := none
            reactions := [] }
        { st with
          messages := st.messages ++ [msg]
          room_messages := fun r =>
            if r = room_id then st.room_messages room_id ++ [msg] else st.room_messages r
          pending_echoes := st.pending_echoes ++ [body]
          scroll_offset := 0 }
      else { st with status_msg := "Send failed" }
    | none => st
  | _, _ => st

/-- `App::send_reply_message` (success and failure of the external
`account.send_reply` call passed in as `sendOk`). -/
def send_reply_message (sendOk : Bool) (now : Nat)
    (body reply_to_event_id reply_to_sender : String) (st : App) : App :=
  match st.active_room, st.active_account_id with
  | some room_id, some account_id =>
    match st.accounts.find? (fun a => a.user_id = account_id) with
    | some account =>
      if sendOk then
        let msg : DisplayMessage :=
          { event_id := none
            sender := account.user_id
            body := body
            timestamp := now
            reply_to_sender := some reply_to_sender
            reply_to_body := none
            reply_to_event_id_raw := some reply_to_event_id
            reactions := [] }
        { st with
          messages := st.messages ++ [msg]
          room_messages := fun r =>
            if r = room_id then st.room_messages room_id ++ [msg] else st.room_messages r
          pending_echoes := st.pending_echoes ++ [body]
          scroll_offset := 0 }
      else { st with status_msg := "Reply failed" }
    | none => st
  | _, _ => st

/-- The `DisplayMessage` the `Message` arm of `App::handle_matrix_event`
builds from a backend event: authoritative event id, reply context
resolved against the current state. -/
def appendedMsg (st : App) (room_id sender body : String) (timestamp : Nat)
    (event_id : String) (reply_to_event_id : Option String) : DisplayMessage :=
  let rp :=
    match reply_to_event_id with
    | some reid => resolve_reply_context st room_id reid
    | none => (none, none)
  { event_id := some event_id
    sender := sender
    body := body
    timestamp := timestamp
    reply_to_sender := rp.1
    reply_to_body := rp.2
    reply_to_event_id_raw := reply_to_event_id
    reactions := [] }

/-- The fall-through tail of the `Message` arm of
`App::handle_matrix_event`: resolve the reply context, append the
message to the per-room cache, and to the displayed list when its room
is the active room (the read receipt sent there is an external effect
with no state change). -/
def message_append (room_id sender body : String) (timestamp : Nat)
    (event_id : String) (reply_to_event_id : Option String) (st : App) : App :=
  let msg : DisplayMessage :=
    appendedMsg st room_id sender body timestamp event_id reply_to_event_id
  let st1 :=
    { st with
      room_messages := fun r =>
        if r = room_id then st.room_messages room_id ++ [msg] else st.room_messages r }
  if st1.active_room = some room_id then
    { st1 with messages := st1.messages ++ [msg] }
  else st1

/-- `App::handle_matrix_event`, for the event variants under study.
The `Message` arm: a body found in the pending-echo set whose sender is
one of the logged-in accounts is treated as the sync echo of a local
send — the pending entry is removed and nothing is appended; otherwise
the message falls through to `message_append`.  The four `Sas*` arms
apply the event when the flow id matches the stored one or the SAS
overlay is open. -/
def handle_matrix_event (ev : MatrixEvent) (st : App) : App :=
  match ev with
  | .message room_id sender body timestamp event_id reply_to_event_id =>
    match st.pending_echoes.findIdx? (fun b => b = body) with
    | some pos =>
      if st.accounts.any (fun a => a.user_id = sender) then
        { st with pending_echoes := st.pending_echoes.eraseIdx pos }
      else
        message_append room_id sender body timestamp event_id reply_to_event_id st
    | none =>
      message_append room_id sender body timestamp event_id reply_to_event_id st
  | .sasStarted flow_id sas =>
    if st.sas_flow_id = some flow_id ∨ st.overlay = Overlay.sasVerify then
      { st with sas_handle := some sas, sas_flow_id := some flow_id }
    else st
  | .sasEmojis flow_id emojis =>
    if st.sas_flow_id = some flow_id ∨ st.overlay = Overlay.sasVerify then
      { st with sas_emojis := emojis, sas_state := SasOverlayState.emojis }
    else st
  | .sasDone flow_id =>
    if st.sas_flow_id = some flow_id ∨ st.overlay = Overlay.sasVerify then
      { st with sas_state := SasOverlayState.done, status_msg := "Session verified!" }
    else st
  | .sasCancelled flow_id reason =>
    if st.sas_flow_id = some flow_id ∨ st.overlay = Overlay.sasVerify then
      { st with sas_state := SasOverlayState.failed, sas_error := some reason }
    else st

/-! ## Pagination (src/app.rs, `fetch_older_messages`) -/

/-- Point update of the pagination-token map
(`room_history_tokens.insert(room_id, v)`). -/
def insertToken (m : String → Option (Option String)) (k : String) (v : Option String) :
    String → Option (Option String) :=
  fun r => if r = k then some v else m r

/-- `App::fetch_older_messages`.  `fetch` is the result of the external
`account.fetch_history_paged` call, consulted only on the path that
reaches it: there must be an active room and account, a stored token
`some (some t)` for the room, and a matching account.  An empty page
exhausts the token; a non-empty page of k messages is prepended, the
selection and scroll offset shift by k, and the returned token is
stored. -/
def fetch_older_messages
    (fetch : Except String (List DisplayMessage × Option String)) (st : App) : App :=
  match st.active_room, st.active_account_id with
  | some room_id, some account_id =>
    match st.room_history_tokens room_id with
    | some (some _t) =>
      let st1 := { st with status_msg := "Loading older messages..." }
      match st1.accounts.find? (fun a => a.user_id = account_id) with
      | some _account =>
        match fetch with
        | .ok (older_msgs, next_token) =>
          if older_msgs = [] then
            { st1 with
              room_history_tokens := insertToken st1.room_history_tokens room_id none
              status_msg := "No more messages" }
          else
            { st1 with
              messages := older_msgs ++ st1.messages
              selected_message := st1.selected_message.map (· + older_msgs.length)
              scroll_offset := st1.scroll_offset + older_msgs.length
              room_history_tokens := insertToken st1.room_history_tokens room_id next_token
              status_msg := "Loaded " ++ toString older_msgs.length ++ " older messages" }
        | .error e => { st1 with status_msg := "Failed to load history: " ++ e }
      | none => st1
    | _ => st
  | _, _ => st

/-- Rust `str::trim`: strip whitespace from both ends (faithful on the
ASCII range; stated over the character list so that it evaluates). -/
def trimStr (s : String) : String :=
  String.mk (((s.data.dropWhile Char.isWhitespace).reverse.dropWhile
    Char.isWhitespace).reverse)

/-- Rust `str::starts_with`, as a character-list test. -/
def startsWithStr (s pat : String) : Bool :=
  pat.data.isPrefixOf s.data

/-- Rust `str::to_lowercase` (faithful on the ASCII range). -/
def lowerStr (s : String) : String :=
  String.mk (s.data.map Char.toLower)

/-! ## Room list ordering (src/app.rs, `refresh_rooms` / `sort_rooms`)

The comparators mirror the Rust closures passed to `Vec::sort_by`.
Rust `u64::cmp` is `natCmp`; Rust `String::cmp` compares the UTF-8
bytes lexicographically, which on valid UTF-8 coincides with comparing
the scalar values character by character (`strCmp`); `to_lowercase` is
`String.toLower` (faithful on the ASCII range).  `Vec::sort_by` is a
stable sort and so is `List.mergeSort`, so both produce the unique
sorted permutation in which equivalent elements keep their relative
order. -/

/-- `u64::cmp` on the Nat embedding. -/
def natCmp (a b : Nat) : Ordering :=
  if a < b then .lt else if b < a then .gt else .eq

/-- Lexicographic comparison of character lists by scalar value. -/
def charListCmp : List Char → List Char → Ordering
  | [], [] => .eq
  | [], _ :: _ => .lt
  | _ :: _, [] => .gt
  | a :: as, b :: bs => (natCmp a.toNat b.toNat).then (charListCmp as bs)

/-- `String::cmp` (byte order of valid UTF-8 = scalar-value order). -/
def strCmp (a b : String) : Ordering :=
  charListCmp a.data b.data

/-- The case-insensitive name key: `name.to_lowercase()`. -/
def lowerName (r : RoomInfo) : String :=
  lowerStr r.name

/-- Timestamp of the last cached message of a room, 0 when none
(the `Recent` comparator key in `sort_rooms`). -/
def lastTs (cache : String → List DisplayMessage) (r : RoomInfo) : Nat :=
  ((cache r.id).getLast?.map (fun m => m.timestamp)).getD 0

/-- The comparator `sort_rooms` hands to `Vec::sort_by` in each mode:
Unread — unread count descending, ties by lowercased name; Recent —
last cached timestamp descending, ties by lowercased name; Alpha —
lowercased name ascending. -/
def roomCmp (mode : RoomSortMode) (cache : String → List DisplayMessage)
    (a b : RoomInfo) : Ordering :=
  match mode with
  | .unread => (natCmp b.unread a.unread).then (strCmp (lowerName a) (lowerName b))
  | .recent =>
    (natCmp (lastTs cache b) (lastTs cache a)).then (strCmp (lowerName a) (lowerName b))
  | .alpha => strCmp (lowerName a) (lowerName b)

/-- The Boolean "less or equivalent" relation induced by `roomCmp`,
under which a stable sort reproduces `Vec::sort_by`. -/
def roomLe (mode : RoomSortMode) (cache : String → List DisplayMessage)
    (a b : RoomInfo) : Bool :=
  (roomCmp mode cache a b).isLE

/-- `App::sort_rooms`: stable sort by the active mode comparator. -/
def sort_rooms (mode : RoomSortMode) (cache : String → List DisplayMessage)
    (rooms : List RoomInfo) : List RoomInfo :=
  rooms.mergeSort (roomLe mode cache)

/-- Remove the first element satisfying `p`, returning it and the
remainder (`Vec::remove` at `iter().position(p)`). -/
def removeFirst (p : α → Bool) : List α → Option (α × List α)
  | [] => none
  | x :: xs =>
    if p x then some (x, xs)
    else (removeFirst p xs).map (fun q => (q.1, x :: q.2))

/-- The favorites-extraction loop of `refresh_rooms`: walk the
configured favorite ids in order, moving the first room with each id
(when present) out of `all` into the favorites list. -/
def extractFavs (favs : List String) (all : List RoomInfo) :
    List RoomInfo × List RoomInfo :=
  match favs with
  | [] => ([], all)
  | f :: fs =>
    match removeFirst (fun r => r.id = f) all with
    | none => extractFavs fs all
    | some (r, rest) =>
      let p := extractFavs fs rest
      (r :: p.1, p.2)

/-- `App::refresh_rooms`.  `all` is the concatenation of every active
account room list (the external `account.rooms()` calls).  Favorites
are pulled out in configured order, the remainder is sorted by the
active mode, the previous selection is restored by room id, and the
index is clamped. -/
def refresh_rooms (all : List RoomInfo) (st : App) : App :=
  let prev_id := (st.all_rooms.get? st.selected_room).map (fun r => r.id)
  let parts := extractFavs st.config_favorites all
  let sorted := sort_rooms st.room_sort st.room_messages parts.2
  let rooms := parts.1 ++ sorted
  let sel1 :=
    match prev_id with
    | some prev =>
      match rooms.findIdx? (fun r => r.id = prev) with
      | some idx => idx
      | none => st.selected_room
    | none => st.selected_room
  let sel2 :=
    if sel1 ≥ rooms.length ∧ rooms ≠ [] then rooms.length - 1 else sel1
  { st with
    all_rooms := rooms
    favorites_count := parts.1.length
    selected_room := sel2 }

/-! ## Login (src/app.rs, `do_login`) -/

/-- Rust `str::trim_start_matches('@')`: drop every leading `@`. -/
def stripAtSigns (s : String) : String :=
  String.mk (s.data.dropWhile (fun c => c = '@'))

/-- The duplicate-identity check at the top of `do_login`, applied to
the trimmed login form fields. -/
def duplicateLogin (accounts : List Account) (user hs : String) : Bool :=
  let check_id := "@" ++ user ++ ":" ++ hs
  let check_id_stripped := "@" ++ stripAtSigns user ++ ":" ++ hs
  accounts.any (fun a =>
    a.user_id = check_id
      || a.user_id = check_id_stripped
      || a.user_id = user
      || (a.homeserver = hs && startsWithStr a.user_id ("@" ++ stripAtSigns user ++ ":")))

/-- `App::do_login`.  `backend` is the result of the external
`Account::login` call (the logged-in account plus the saved session,
the latter modelled as an opaque string); `rooms` feeds the
`refresh_rooms` call on the success path.  The returned Bool records
whether the backend login was invoked at all.  On a duplicate identity
the login error is set and the function returns before any backend
call (`account.start_sync` and `config.save` are external effects with
no further state change). -/
def do_login (backend : Except String (Account × String))
    (rooms : List RoomInfo) (st : App) : App × Bool :=
  let st := { st with login_busy := true, login_error := none }
  let user := trimStr st.login_username
  let hs := trimStr st.login_homeserver
  if duplicateLogin st.accounts user hs then
    ({ st with
        login_error :=
          some "Already logged in — use Verify Session to recover E2EE keys"
        login_busy := false }, false)
  else
    let st := { st with status_msg := "Logging in to " ++ st.login_homeserver ++ "..." }
    match backend with
    | .ok (account, saved) =>
      let st :=
        { st with
          config_saved := st.config_saved ++ [saved]
          status_msg := "Logged in as " ++ account.user_id
          accounts := st.accounts ++ [account] }
      let st := refresh_rooms rooms st
      ({ st with overlay := Overlay.none, login_busy := false }, true)
    | .error e =>
      ({ st with
          login_error := some e
          status_msg := "Login failed"
          login_busy := false }, true)

/-! ## Busy-gated overlay key handlers (src/app.rs)

Each handler opens with `if self.<overlay>_busy { return; }`.  The body
below the gate is abstracted as the `rest` argument (for the login
handler the `Esc` arm, which closes the overlay, is kept concrete);
the gate itself is embedded verbatim, so every theorem about the busy
state holds for the real body in particular. -/

/-- `App::handle_login_key`: busy gate, concrete `Esc` arm, abstract
remainder. -/
def handle_login_key (rest : KeyEvent → App → App) (key : KeyEvent) (st : App) : App :=
  if st.login_busy then st
  else
    match key.code with
    | .esc => { st with overlay := Overlay.none }
    | _ => rest key st

/-- `App::handle_creator_key`: busy gate, abstract remainder. -/
def handle_creator_key (rest : KeyEvent → App → App) (key : KeyEvent) (st : App) : App :=
  if st.creator_busy then st else rest key st

/-- `App::handle_editor_key`: busy gate, abstract remainder. -/
def handle_editor_key (rest : KeyEvent → App → App) (key : KeyEvent) (st : App) : App :=
  if st.editor_busy then st else rest key st

/-- `App::handle_profile_key`: busy gate, abstract remainder. -/
def handle_profile_key (rest : KeyEvent → App → App) (key : KeyEvent) (st : App) : App :=
  if st.profile_busy then st else rest key st

/-- `App::handle_recovery_key`: busy gate, abstract remainder. -/
def handle_recovery_key (rest : KeyEvent → App → App) (key : KeyEvent) (st : App) : App :=
  if st.recovery_busy then st else rest key st

/-- `App::handle_message_action_key`: busy gate, abstract remainder. -/
def handle_message_action_key (rest : KeyEvent → App → App) (key : KeyEvent) (st : App) : App :=
  if st.message_edit_busy then st else rest key st

/-! ## Concrete states used to evaluate the operations -/

/-- A quiescent application state: no accounts, no rooms, no messages,
no overlay. -/
def baseApp : App :=
  { accounts := []
    overlay := Overlay.none
    messages := []
    scroll_offset := 0
    room_messages := fun _ => []
    pending_echoes := []
    active_room := none
    active_account_id := none
    status_msg := ""
    all_rooms := []
    selected_room := 0
    favorites_count := 0
    room_sort := RoomSortMode.unread
    config_favorites := []
    config_saved := []
    selected_message := none
    room_history_tokens := fun _ => none
    login_homeserver := ""
    login_username := ""
    login_password := ""
    login_focus := 0
    login_error := none
    login_busy := false
    creator_busy := false
    editor_busy := false
    profile_busy := false
    recovery_busy := false
    message_edit_busy := false
    sas_state := SasOverlayState.waiting
    sas_emojis := []
    sas_error := none
    sas_account_idx := 0
    sas_flow_id := none
    sas_user_id := none
    sas_handle := none }

/-- One logged-in account `@u:hs`, viewing room `!r`. -/
def chatApp : App :=
  { baseApp with
    accounts := [{ user_id := "@u:hs", homeserver := "hs" }]
    active_room := some "!r"
    active_account_id := some "@u:hs" }

/-- `chatApp` with an exhausted pagination token (`Some(None)`) stored
for the active room. -/
def exhaustedApp : App :=
  { chatApp with
    room_history_tokens := fun r => if r = "!r" then some none else none }

/-- `chatApp` with a live pagination token stored for the active room. -/
def tokenApp : App :=
  { chatApp with
    room_history_tokens := fun r => if r = "!r" then some (some "t0") else none }

/-- A server message used as pagination payload. -/
def msgA : DisplayMessage :=
  { event_id := some "e0"
    sender := "@a:hs"
    body := "x"
    timestamp := 1
    reply_to_sender := none
    reply_to_body := none
    reply_to_event_id_raw := none
    reactions := [] }

/-- A state with every overlay busy flag set. -/
def allBusyApp : App :=
  { baseApp with
    login_busy := true
    creator_busy := true
    editor_busy := true
    profile_busy := true
    recovery_busy := true
    message_edit_busy := true }

/-! ## Theorems -/

/-- C10: the 50-byte reply snippet computation is claimed total, but a
body of 17 three-byte characters (51 bytes) makes byte index 50 fall
inside a character, the unguarded panic condition of `&body[..50]` in
`resolve_reply_context`, `resolve_all_replies` and the reply shortcut
of `handle_chat_key`. -/
theorem snippet_truncation_panics_on_multibyte_body :
    snippetPanics (String.mk (List.replicate 17 '€')) = true := by decide

/-- C9 (counterexample): with the SAS overlay open and flow "f1"
active, a stale `SasDone` for flow "f2" is nonetheless applied — the
guard `flow matches || overlay == SasVerify` bypasses the flow-id check
while the overlay is open, so the SAS state changes where the claim
requires it unchanged. -/
theorem sas_stale_flow_applied_while_overlay_open :
    (handle_matrix_event (.sasDone "f2")
        { baseApp with
          overlay := Overlay.sasVerify
          sas_flow_id := some "f1"
          sas_state := SasOverlayState.emojis }).sas_state = SasOverlayState.done
      ∧ ({ baseApp with
            overlay := Overlay.sasVerify
            sas_flow_id := some "f1"
            sas_state := SasOverlayState.emojis } : App).sas_state
          ≠ SasOverlayState.done := by
  constructor
  · rfl
  · decide

/-- C9 (amended): a verification event whose flow id differs from the
stored `sas_flow_id` is ignored only when the SAS overlay is not open;
under that extra condition every `Sas*` event leaves the state
untouched. -/
theorem sas_stale_flow_ignored_when_overlay_closed (st : App) (f : String)
    (hov : st.overlay ≠ Overlay.sasVerify) (hfl : st.sas_flow_id ≠ some f) :
    (∀ sas, handle_matrix_event (.sasStarted f sas) st = st)
      ∧ (∀ em, handle_matrix_event (.sasEmojis f em) st = st)
      ∧ handle_matrix_event (.sasDone f) st = st
      ∧ (∀ reason, handle_matrix_event (.sasCancelled f reason) st = st) := by
  have hcond : ¬(st.sas_flow_id = some f ∨ st.overlay = Overlay.sasVerify) := by
    rintro (h | h)
    · exact hfl h
    · exact hov h
  refine ⟨fun sas => ?_, fun em => ?_, ?_, fun reason => ?_⟩ <;>
    simp only [handle_matrix_event, if_neg hcond]

/-- Witness for C9: the quiescent state ignores a stale `SasDone`. -/
theorem sas_stale_flow_ignored_witness :
    handle_matrix_event (.sasDone "f9") baseApp = baseApp :=
  (sas_stale_flow_ignored_when_overlay_closed baseApp "f9" (by decide)
    (by decide)).2.2.1

/-- C8 (counterexample): while `login_busy` is set, the login overlay
handler ignores Esc exactly like every other key — the state is
returned unchanged (overlay still open, busy still set), although the
same Esc closes the overlay once the busy flag is clear.  Cancellation
is therefore not accepted while busy, contrary to the claim. -/
theorem busy_login_esc_not_accepted :
    handle_login_key (fun _ s => s) ⟨KeyCode.esc⟩
        { baseApp with overlay := Overlay.login, login_busy := true }
      = { baseApp with overlay := Overlay.login, login_busy := true }
      ∧ ({ baseApp with overlay := Overlay.login, login_busy := true } : App).overlay
          = Overlay.login
      ∧ (handle_login_key (fun _ s => s) ⟨KeyCode.esc⟩
            { baseApp with overlay := Overlay.login, login_busy := false }).overlay
          = Overlay.none := by
  exact ⟨rfl, rfl, rfl⟩

/-- C8 (amended): while an overlay busy flag is set, the overlay key
handler ignores every key event — including Esc — and leaves the whole
application state unchanged; this holds for the login, room creator,
room editor, profile editor, recovery and message action overlays, and
for any handler body below the gate. -/
theorem busy_flag_suppresses_all_overlay_input
    (rest : KeyEvent → App → App) (key : KeyEvent) (st : App) :
    (st.login_busy = true → handle_login_key rest key st = st)
      ∧ (st.creator_busy = true → handle_creator_key rest key st = st)
      ∧ (st.editor_busy = true → handle_editor_key rest key st = st)
      ∧ (st.profile_busy = true → handle_profile_key rest key st = st)
      ∧ (st.recovery_busy = true → handle_recovery_key rest key st = st)
      ∧ (st.message_edit_busy = true → handle_message_action_key rest key st = st) := by
  refine ⟨fun h => ?_, fun h => ?_, fun h => ?_, fun h => ?_, fun h => ?_, fun h => ?_⟩ <;>
    simp only [handle_login_key, handle_creator_key, handle_editor_key,
      handle_profile_key, handle_recovery_key, handle_message_action_key, h, if_true]

/-- Witness for C8 (amended): a state with every busy flag set ignores
an Enter key in all six handlers. -/
theorem busy_flag_suppresses_witness :
    handle_login_key (fun _ s => s) ⟨KeyCode.enter⟩ allBusyApp = allBusyApp
      ∧ handle_creator_key (fun _ s => s) ⟨KeyCode.enter⟩ allBusyApp = allBusyApp
      ∧ handle_editor_key (fun _ s => s) ⟨KeyCode.enter⟩ allBusyApp = allBusyApp
      ∧ handle_profile_key (fun _ s => s) ⟨KeyCode.enter⟩ allBusyApp = allBusyApp
      ∧ handle_recovery_key (fun _ s => s) ⟨KeyCode.enter⟩ allBusyApp = allBusyApp
      ∧ handle_message_action_key (fun _ s => s) ⟨KeyCode.enter⟩ allBusyApp = allBusyApp := by
  have h := busy_flag_suppresses_all_overlay_input (fun _ s => s) ⟨KeyCode.enter⟩ allBusyApp
  exact ⟨h.1 rfl, h.2.1 rfl, h.2.2.1 rfl, h.2.2.2.1 rfl, h.2.2.2.2.1 rfl, h.2.2.2.2.2 rfl⟩

/-- C4 (counterexample): with the stored pagination token already
`Some(None)` for the active room, a `load_older` call is a silent
no-op — the status line keeps its previous contents instead of showing
the claimed "no more messages" signal, because the function returns
before touching the status. -/
theorem fetch_older_exhausted_no_status_signal :
    (fetch_older_messages (.ok ([], none)) exhaustedApp).status_msg
        = exhaustedApp.status_msg
      ∧ (fetch_older_messages (.ok ([], none)) exhaustedApp).status_msg
          ≠ "No more messages" := by
  constructor
  · rfl
  · decide

/-- C4 (amended): once the stored pagination token for the active room
is `None` (or absent), every `fetch_older_messages` call returns the
state completely unchanged — displayed list, per-room cache, selection,
scroll offset and status line included, so no message is ever
duplicated; the user-visible "no more messages" signal is produced only
by the call that exhausts the token, not by these no-op calls. -/
theorem fetch_older_exhausted_noop
    (fetch : Except String (List DisplayMessage × Option String))
    (st : App) (r : String)
    (har : st.active_room = some r)
    (htok : st.room_history_tokens r = none ∨ st.room_history_tokens r = some none) :
    fetch_older_messages fetch st = st := by
  unfold fetch_older_messages
  rw [har]
  cases haid : st.active_account_id with
  | none => rfl
  | some aid =>
    dsimp only
    rcases htok with h | h <;> rw [h]

/-- Witness for C4: the exhausted state is returned unchanged even when
the (never consulted) backend would offer a page. -/
theorem fetch_older_exhausted_noop_witness :
    fetch_older_messages (.ok ([msgA], some "t1")) exhaustedApp = exhaustedApp :=
  fetch_older_exhausted_noop (.ok ([msgA], some "t1")) exhaustedApp "!r" rfl
    (Or.inr (by decide))

/-- C5: a successful older-history page of k messages is prepended to
the displayed list (the previous messages follow it unchanged), the
selection — when present — and the scroll offset both shift by exactly
k, and the token returned with the page replaces the stored one. -/
theorem fetch_older_prepend_shifts_cursor
    (st : App) (r aid t : String) (acct : Account)
    (older : List DisplayMessage) (next : Option String)
    (har : st.active_room = some r) (haid : st.active_account_id = some aid)
    (htok : st.room_history_tokens r = some (some t))
    (hacct : st.accounts.find? (fun a => a.user_id = aid) = some acct)
    (hne : older ≠ []) :
    (fetch_older_messages (.ok (older, next)) st).messages = older ++ st.messages
      ∧ (fetch_older_messages (.ok (older, next)) st).selected_message
          = st.selected_message.map (· + older.length)
      ∧ (fetch_older_messages (.ok (older, next)) st).scroll_offset
          = st.scroll_offset + older.length
      ∧ (fetch_older_messages (.ok (older, next)) st).room_history_tokens r
          = some next := by
  unfold fetch_older_messages
  rw [har, haid]
  dsimp only
  rw [htok]
  dsimp only
  rw [hacct]
  dsimp only
  rw [if_neg hne]
  refine ⟨rfl, rfl, rfl, ?_⟩
  simp [insertToken]

/-- Witness for C5: prepending the one-message page `[msgA]` to the
token-holding state shifts nothing else and stores the new token. -/
theorem fetch_older_prepend_witness :
    (fetch_older_messages (.ok ([msgA], some "t1")) tokenApp).messages
        = [msgA] ++ tokenApp.messages
      ∧ (fetch_older_messages (.ok ([msgA], some "t1")) tokenApp).selected_message
          = tokenApp.selected_message.map (· + [msgA].length)
      ∧ (fetch_older_messages (.ok ([msgA], some "t1")) tokenApp).scroll_offset
          = tokenApp.scroll_offset + [msgA].length
      ∧ (fetch_older_messages (.ok ([msgA], some "t1")) tokenApp).room_history_tokens "!r"
          = some (some "t1") :=
  fetch_older_prepend_shifts_cursor tokenApp "!r" "@u:hs" "t0"
    { user_id := "@u:hs", homeserver := "hs" } [msgA] (some "t1")
    rfl rfl (by decide) (by decide) (by decide)

/-! ### Helper lemmas for the message reconciler -/

/-- The provisional local-echo message `send_current_message` builds. -/
def echoMsg (acct : Account) (now : Nat) (body : String) : DisplayMessage :=
  { event_id := none
    sender := acct.user_id
    body := body
    timestamp := now
    reply_to_sender := none
    reply_to_body := none
    reply_to_event_id_raw := none
    reactions := [] }

theorem findIdx?_append_singleton {α} (p : α → Bool) (xs : List α) (x : α)
    (h : ∀ y ∈ xs, p y = false) (hx : p x = true) :
    (xs ++ [x]).findIdx? p = some xs.length := by
  rw [List.findIdx?_append, List.findIdx?_eq_none_iff.mpr h]
  simp [List.findIdx?_cons, hx]

theorem eraseIdx_append_length {α} (xs : List α) (x : α) :
    (xs ++ [x]).eraseIdx xs.length = xs := by
  rw [List.eraseIdx_append_of_length_le (Nat.le_refl _)]
  simp

/-- On the success path, `send_current_message` appends the local echo
to the displayed list and the active-room cache, registers the body as
a pending echo, and resets the scroll offset. -/
theorem send_current_message_spec (st : App) (r aid : String) (acct : Account)
    (now : Nat) (body : String)
    (har : st.active_room = some r) (haid : st.active_account_id = some aid)
    (hacct : st.accounts.find? (fun a => a.user_id = aid) = some acct) :
    send_current_message true now body st =
      { st with
        messages := st.messages ++ [echoMsg acct now body]
        room_messages := fun x =>
          if x = r then st.room_messages r ++ [echoMsg acct now body]
          else st.room_messages x
        pending_echoes := st.pending_echoes ++ [body]
        scroll_offset := 0 } := by
  unfold send_current_message
  rw [har, haid]
  dsimp only
  rw [hacct]
  rfl

/-- What `message_append` does to each state component. -/
theorem message_append_spec (room_id sender body : String) (ts : Nat)
    (eid : String) (rto : Option String) (st : App) :
    (message_append room_id sender body ts eid rto st).pending_echoes
        = st.pending_echoes
      ∧ (message_append room_id sender body ts eid rto st).room_messages room_id
          = st.room_messages room_id
              ++ [appendedMsg st room_id sender body ts eid rto]
      ∧ (st.active_room = some room_id →
          (message_append room_id sender body ts eid rto st).messages
            = st.messages ++ [appendedMsg st room_id sender body ts eid rto])
      ∧ (st.active_room ≠ some room_id →
          (message_append room_id sender body ts eid rto st).messages = st.messages) := by
  unfold message_append
  dsimp only
  by_cases h : st.active_room = some room_id <;> simp [h]

/-- The suppression branch of the `Message` arm: pending-echo hit from
a local account sender removes the entry and changes nothing else. -/
theorem handle_message_suppress (r sender body : String) (ts : Nat) (eid : String)
    (rto : Option String) (st : App) (pos : Nat)
    (hfind : st.pending_echoes.findIdx? (fun b => b = body) = some pos)
    (hown : st.accounts.any (fun a => a.user_id = sender) = true) :
    handle_matrix_event (.message r sender body ts eid rto) st
      = { st with pending_echoes := st.pending_echoes.eraseIdx pos } := by
  unfold handle_matrix_event
  dsimp only
  rw [hfind]
  dsimp only
  rw [if_pos hown]

/-- The `Message` arm falls through to `message_append` when the sender
is not a local account. -/
theorem handle_message_not_own (r sender body : String) (ts : Nat) (eid : String)
    (rto : Option String) (st : App)
    (hany : st.accounts.any (fun a => a.user_id = sender) = false) :
    handle_matrix_event (.message r sender body ts eid rto) st
      = message_append r sender body ts eid rto st := by
  unfold handle_matrix_event
  dsimp only
  cases hfind : st.pending_echoes.findIdx? (fun b => b = body) with
  | none => rfl
  | some pos =>
    dsimp only
    rw [if_neg]
    rw [hany]
    exact Bool.false_ne_true

/-- The `Message` arm falls through to `message_append` when the body
is not a pending echo. -/
theorem handle_message_no_echo (r sender body : String) (ts : Nat) (eid : String)
    (rto : Option String) (st : App)
    (hfind : st.pending_echoes.findIdx? (fun b => b = body) = none) :
    handle_matrix_event (.message r sender body ts eid rto) st
      = message_append r sender body ts eid rto st := by
  unfold handle_matrix_event
  dsimp only
  rw [hfind]

/-- C1: echo suppression.  (a) After `send_current_message` registers a
fresh body in the pending-echo set, a backend `Message` event carrying
that body from the sending account is absorbed: the displayed list and
the per-room cache each contain exactly one message with that body (the
local echo) and the pending entry is removed.  (b) An event from a
sender that is no local account is appended normally (cache always,
display when its room is active, pending set untouched), as is (c) an
event whose body is not pending. -/
theorem echo_suppression :
    (∀ (st : App) (r aid body eid : String) (acct : Account) (tsS tsE : Nat),
      st.active_room = some r →
      st.active_account_id = some aid →
      st.accounts.find? (fun a => a.user_id = aid) = some acct →
      (∀ m ∈ st.messages, m.body ≠ body) →
      (∀ m ∈ st.room_messages r, m.body ≠ body) →
      body ∉ st.pending_echoes →
      (handle_matrix_event (.message r acct.user_id body tsE eid none)
          (send_current_message true tsS body st)).messages.countP
            (fun m => m.body = body) = 1
        ∧ ((handle_matrix_event (.message r acct.user_id body tsE eid none)
            (send_current_message true tsS body st)).room_messages r).countP
              (fun m => m.body = body) = 1
        ∧ (handle_matrix_event (.message r acct.user_id body tsE eid none)
            (send_current_message true tsS body st)).pending_echoes
              = st.pending_echoes)
      ∧ (∀ (st : App) (r sender body : String) (ts : Nat) (eid : String)
            (rto : Option String),
          (∀ a ∈ st.accounts, a.user_id ≠ sender) →
          (handle_matrix_event (.message r sender body ts eid rto) st).room_messages r
              = st.room_messages r ++ [appendedMsg st r sender body ts eid rto]
            ∧ (handle_matrix_event (.message r sender body ts eid rto) st).pending_echoes
                = st.pending_echoes
            ∧ (st.active_room = some r →
                (handle_matrix_event (.message r sender body ts eid rto) st).messages
                  = st.messages ++ [appendedMsg st r sender body ts eid rto]))
      ∧ (∀ (st : App) (r sender body : String) (ts : Nat) (eid : String)
            (rto : Option String),
          body ∉ st.pending_echoes →
          (handle_matrix_event (.message r sender body ts eid rto) st).room_messages r
              = st.room_messages r ++ [appendedMsg st r sender body ts eid rto]
            ∧ (handle_matrix_event (.message r sender body ts eid rto) st).pending_echoes
                = st.pending_echoes
            ∧ (st.active_room = some r →
                (handle_matrix_event (.message r sender body ts eid rto) st).messages
                  = st.messages ++ [appendedMsg st r sender body ts eid rto])) := by
  refine ⟨?_, ?_, ?_⟩
  · intro st r aid body eid acct tsS tsE har haid hacct hm hc hp
    have hs := send_current_message_spec st r aid acct tsS body har haid hacct
    have hPend : (send_current_message true tsS body st).pending_echoes
        = st.pending_echoes ++ [body] := by rw [hs]
    have hMsgs : (send_current_message true tsS body st).messages
        = st.messages ++ [echoMsg acct tsS body] := by rw [hs]
    have hRoom : (send_current_message true tsS body st).room_messages r
        = st.room_messages r ++ [echoMsg acct tsS body] := by rw [hs]; simp
    have hAcc : (send_current_message true tsS body st).accounts = st.accounts := by
      rw [hs]
    have hfind : (send_current_message true tsS body st).pending_echoes.findIdx?
        (fun b => b = body) = some st.pending_echoes.length := by
      rw [hPend]
      refine findIdx?_append_singleton _ _ _ (fun y hy => ?_) (by simp)
      simp only [decide_eq_false_iff_not]
      exact fun h => hp (h ▸ hy)
    have hown : ((send_current_message true tsS body st).accounts.any
        (fun a => a.user_id = acct.user_id)) = true := by
      rw [hAcc]
      exact List.any_eq_true.mpr ⟨acct, List.mem_of_find?_eq_some hacct, by simp⟩
    rw [handle_message_suppress r acct.user_id body tsE eid none
      (send_current_message true tsS body st) st.pending_echoes.length hfind hown]
    refine ⟨?_, ?_, ?_⟩
    · show ((send_current_message true tsS body st).messages).countP
        (fun m => m.body = body) = 1
      rw [hMsgs, List.countP_append, List.countP_eq_zero.mpr (by simpa using hm)]
      simp [echoMsg]
    · show ((send_current_message true tsS body st).room_messages r).countP
        (fun m => m.body = body) = 1
      rw [hRoom, List.countP_append, List.countP_eq_zero.mpr (by simpa using hc)]
      simp [echoMsg]
    · show (send_current_message true tsS body st).pending_echoes.eraseIdx
        st.pending_echoes.length = st.pending_echoes
      rw [hPend]
      exact eraseIdx_append_length st.pending_echoes body
  · intro st r sender body ts eid rto h
    have hany : (st.accounts.any (fun a => a.user_id = sender)) = false :=
      List.any_eq_false.mpr (fun a ha => by simpa using h a ha)
    rw [handle_message_not_own r sender body ts eid rto st hany]
    have hspec := message_append_spec r sender body ts eid rto st
    exact ⟨hspec.2.1, hspec.1, hspec.2.2.1⟩
  · intro st r sender body ts eid rto hp
    have hfind : st.pending_echoes.findIdx? (fun b => b = body) = none :=
      List.findIdx?_eq_none_iff.mpr (fun x hx => by
        simp only [decide_eq_false_iff_not]
        exact fun h => hp (h ▸ hx))
    rw [handle_message_no_echo r sender body ts eid rto st hfind]
    have hspec := message_append_spec r sender body ts eid rto st
    exact ⟨hspec.2.1, hspec.1, hspec.2.2.1⟩

/-- Witness for C1: sending "hello" from `@u:hs` and receiving its sync
echo leaves exactly one copy in the display and the cache and clears
the pending set. -/
theorem echo_suppression_witness :
    (handle_matrix_event (.message "!r" "@u:hs" "hello" 6 "e1" none)
        (send_current_message true 5 "hello" chatApp)).messages.countP
          (fun m => m.body = "hello") = 1
      ∧ ((handle_matrix_event (.message "!r" "@u:hs" "hello" 6 "e1" none)
          (send_current_message true 5 "hello" chatApp)).room_messages "!r").countP
            (fun m => m.body = "hello") = 1
      ∧ (handle_matrix_event (.message "!r" "@u:hs" "hello" 6 "e1" none)
          (send_current_message true 5 "hello" chatApp)).pending_echoes
            = chatApp.pending_echoes :=
  echo_suppression.1 chatApp "!r" "@u:hs" "hello" "e1"
    { user_id := "@u:hs", homeserver := "hs" } 5 6 rfl rfl (by decide)
    (by simp [chatApp, baseApp]) (by simp [chatApp, baseApp])
    (by simp [chatApp, baseApp])

/-- C2: after the backend confirms a locally-echoed "hello" with event
id "e1", the displayed list and the room cache still hold only the
provisional copy (`event_id = none`) — the authoritative event was
dropped by the suppression branch and the echo is never promoted, so
the claimed reconciliation to `event_id = Some(x)` does not happen. -/
theorem echo_never_becomes_authoritative :
    ((handle_matrix_event (.message "!r" "@u:hs" "hello" 6 "e1" none)
        (send_current_message true 5 "hello" chatApp)).messages.map
          (fun m => (m.body, m.event_id)) = [("hello", none)])
      ∧ (((handle_matrix_event (.message "!r" "@u:hs" "hello" 6 "e1" none)
          (send_current_message true 5 "hello" chatApp)).room_messages "!r").map
            (fun m => (m.body, m.event_id)) = [("hello", none)])
      ∧ (handle_matrix_event (.message "!r" "@u:hs" "hello" 6 "e1" none)
          (send_current_message true 5 "hello" chatApp)).pending_echoes = [] := by
  exact ⟨rfl, rfl, rfl⟩

/-! ### Helper lemmas for reply resolution -/

/-- The reply-target message of the C3 scenario: event id "1",
body "x". -/
def msgRepA : DisplayMessage :=
  { event_id := some "1"
    sender := "@a:hs"
    body := "x"
    timestamp := 1
    reply_to_sender := none
    reply_to_body := none
    reply_to_event_id_raw := none
    reactions := [] }

/-- The replying message of the C3 scenario: raw reply pointer "1",
body "y", reply fields still empty. -/
def msgRepB : DisplayMessage :=
  { event_id := some "2"
    sender := "@b:hs"
    body := "y"
    timestamp := 2
    reply_to_sender := none
    reply_to_body := none
    reply_to_event_id_raw := some "1"
    reactions := [] }

/-- The last message in the list whose event id is `k` — the entry
that survives the `HashMap` collect in `resolve_all_replies`. -/
def lastMatch (k : String) : List DisplayMessage → Option DisplayMessage
  | [] => none
  | m :: ms =>
    match lastMatch k ms with
    | some r => some r
    | none => if m.event_id = some k then some m else none

theorem foldl_replyStep (l : List DisplayMessage) :
    ∀ (acc : String → Option (String × String)) (k : String),
      (l.foldl replyStep acc) k =
        match lastMatch k l with
        | some m => some (m.sender, snippet m.body)
        | none => acc k := by
  induction l with
  | nil => intro acc k; rfl
  | cons m ms ih =>
    intro acc k
    show (ms.foldl replyStep (replyStep acc m)) k = _
    rw [ih (replyStep acc m) k]
    cases h : lastMatch k ms with
    | some r => simp [lastMatch, h]
    | none =>
      simp only [lastMatch, h]
      unfold replyStep
      cases he : m.event_id with
      | none => simp [he]
      | some eid =>
        by_cases hk : k = eid
        · subst hk
          simp [he]
        · have hne : ¬(some eid = some k) := by
            simp
            exact fun hcontra => hk hcontra.symm
          simp [he, hk, hne]

theorem lastMatch_mem {k : String} {l : List DisplayMessage} {r : DisplayMessage}
    (h : lastMatch k l = some r) : r ∈ l ∧ r.event_id = some k := by
  induction l with
  | nil => simp [lastMatch] at h
  | cons m ms ih =>
    simp only [lastMatch] at h
    cases hm : lastMatch k ms with
    | some q =>
      rw [hm] at h
      obtain ⟨h1, h2⟩ := ih (hm.trans (by injection h with h; rw [h]))
      exact ⟨List.mem_cons_of_mem m h1, h2⟩
    | none =>
      rw [hm] at h
      by_cases he : m.event_id = some k
      · rw [if_pos he] at h
        injection h with h
        subst h
        exact ⟨List.mem_cons_self m ms, he⟩
      · rw [if_neg he] at h
        cases h

theorem lastMatch_ne_none {k : String} {l : List DisplayMessage} {A : DisplayMessage}
    (hA : A ∈ l) (he : A.event_id = some k) : lastMatch k l ≠ none := by
  induction l with
  | nil => cases hA
  | cons m ms ih =>
    simp only [lastMatch]
    cases hm : lastMatch k ms with
    | some q => simp
    | none =>
      rcases List.mem_cons.mp hA with h | h
      · subst h
        rw [if_pos he]
        simp
      · exact absurd hm (ih h)

/-- When `eid` belongs to exactly one message `A` of the list, the
resolve index maps it to `A`. -/
theorem replyIndex_unique (msgs : List DisplayMessage) (A : DisplayMessage)
    (eid : String) (hA : A ∈ msgs) (he : A.event_id = some eid)
    (huniq : ∀ m ∈ msgs, m.event_id = some eid → m = A) :
    replyIndex msgs eid = some (A.sender, snippet A.body) := by
  unfold replyIndex
  rw [foldl_replyStep msgs _ eid]
  cases hm : lastMatch eid msgs with
  | none => exact absurd hm (lastMatch_ne_none hA he)
  | some r =>
    obtain ⟨hrm, hre⟩ := lastMatch_mem hm
    rw [huniq r hrm hre]

/-- `resolve_reply_context` finds nothing when no message with the
target event id exists in the display or the room cache. -/
theorem resolve_reply_context_none (st : App) (r reid : String)
    (h1 : ∀ m ∈ st.messages, m.event_id ≠ some reid)
    (h2 : ∀ m ∈ st.room_messages r, m.event_id ≠ some reid) :
    resolve_reply_context st r reid = (none, none) := by
  unfold resolve_reply_context
  rw [List.find?_eq_none.mpr (fun x hx => by simpa using h1 x hx)]
  rw [List.find?_eq_none.mpr (fun x hx => by simpa using h2 x hx)]

/-- C3: reply resolution.  (a) If the room list contains a message `A`
that is the unique owner of event id `eid`, then `resolve_all_replies`
rewrites any entry `B` whose raw reply pointer is `eid` and whose
reply sender is still empty into `B` with `A`'s sender and snippet (the
panic-freedom hypothesis records that the Rust index build must not
abort on any body; see C10).  (b) A `Message` event whose reply target
is nowhere to be found is still appended immediately, with both reply
fields empty — display is never blocked — and such entries are exactly
the ones (a) backfills on the next batch pass. -/
theorem reply_resolution :
    (∀ (msgs : List DisplayMessage) (j : Nat) (A B : DisplayMessage) (eid : String),
      A ∈ msgs →
      A.event_id = some eid →
      (∀ m ∈ msgs, m.event_id = some eid → m = A) →
      msgs[j]? = some B →
      B.reply_to_event_id_raw = some eid →
      B.reply_to_sender = none →
      (∀ m ∈ msgs, snippetPanics m.body = false) →
      (resolve_all_replies msgs)[j]? =
        some { B with
               reply_to_sender := some A.sender
               reply_to_body := some (snippet A.body) })
    ∧ (∀ (st : App) (r sender body : String) (ts : Nat) (eid reid : String),
        st.active_room = some r →
        (∀ m ∈ st.messages, m.event_id ≠ some reid) →
        (∀ m ∈ st.room_messages r, m.event_id ≠ some reid) →
        body ∉ st.pending_echoes →
        (handle_matrix_event (.message r sender body ts eid (some reid)) st).messages
          = st.messages ++
              [{ event_id := some eid
                 sender := sender
                 body := body
                 timestamp := ts
                 reply_to_sender := none
                 reply_to_body := none
                 reply_to_event_id_raw := some reid
                 reactions := [] }]) := by
  constructor
  · intro msgs j A B eid hA he huniq hj hBr hBs _hnopanic
    unfold resolve_all_replies
    rw [List.getElem?_map, hj]
    simp only [Option.map_some']
    rw [if_pos hBs, hBr]
    dsimp only
    rw [replyIndex_unique msgs A eid hA he huniq]
  · intro st r sender body ts eid reid har h1 h2 hp
    have hfind : st.pending_echoes.findIdx? (fun b => b = body) = none :=
      List.findIdx?_eq_none_iff.mpr (fun x hx => by
        simp only [decide_eq_false_iff_not]
        exact fun h => hp (h ▸ hx))
    rw [handle_message_no_echo r sender body ts eid (some reid) st hfind]
    have hspec := (message_append_spec r sender body ts eid (some reid) st).2.2.1 har
    rw [hspec]
    unfold appendedMsg
    dsimp only
    rw [resolve_reply_context_none st r reid h1 h2]

/-- Witness for C3: the two-message room `[A(id "1", body "x"),
B(reply_to "1", body "y")]` resolves B to A in one batch pass, and an
unknown reply target "zzz" does not block the immediate append. -/
theorem reply_resolution_witness :
    (resolve_all_replies [msgRepA, msgRepB])[1]? =
        some { msgRepB with
               reply_to_sender := some msgRepA.sender
               reply_to_body := some (snippet msgRepA.body) }
      ∧ (handle_matrix_event (.message "!r" "@b:hs" "y" 7 "e9" (some "zzz"))
          chatApp).messages
          = chatApp.messages ++
              [{ event_id := some "e9"
                 sender := "@b:hs"
                 body := "y"
                 timestamp := 7
                 reply_to_sender := none
                 reply_to_body := none
                 reply_to_event_id_raw := some "zzz"
                 reactions := [] }] :=
  ⟨reply_resolution.1 [msgRepA, msgRepB] 1 msgRepA msgRepB "1" (by simp)
      (by decide) (by decide) (by decide) (by decide) (by decide) (by decide),
   reply_resolution.2 chatApp "!r" "@b:hs" "y" 7 "e9" "zzz" rfl
      (by simp [chatApp, baseApp]) (by simp [chatApp, baseApp])
      (by simp [chatApp, baseApp])⟩

/-! ### Duplicate-login rejection (C7) -/

/-- An active session for `@alice:hs` with a mixed-case login attempt
"Alice" pending in the form. -/
def dupCaseApp : App :=
  { baseApp with
    accounts := [{ user_id := "@alice:hs", homeserver := "hs" }]
    login_homeserver := "hs"
    login_username := "Alice"
    login_password := "p" }

/-- An active session for `@alice:hs` with an exactly matching login
attempt "alice" pending in the form. -/
def dupExactApp : App :=
  { baseApp with
    accounts := [{ user_id := "@alice:hs", homeserver := "hs" }]
    login_homeserver := "hs"
    login_username := "alice"
    login_password := "p" }

/-- C7 (counterexample): the duplicate check is case-sensitive.  The
attempt "Alice"@"hs" matches the active account `@alice:hs` after case
normalization (their lowercased ids coincide), yet `do_login` calls the
backend (second component `true`) and appends a second account with the
very same user id — so the claimed rejection does not happen and two
active accounts share one user id. -/
theorem duplicate_login_case_not_rejected :
    lowerStr ("@" ++ "Alice" ++ ":" ++ "hs") = lowerStr "@alice:hs"
      ∧ (do_login (.ok ({ user_id := "@alice:hs", homeserver := "hs" }, "s"))
          [] dupCaseApp).2 = true
      ∧ (do_login (.ok ({ user_id := "@alice:hs", homeserver := "hs" }, "s"))
          [] dupCaseApp).1.accounts
          = [{ user_id := "@alice:hs", homeserver := "hs" },
             { user_id := "@alice:hs", homeserver := "hs" }] := by
  exact ⟨rfl, rfl, rfl⟩

/-- C7 (amended): the rejection holds for identities matching after
format normalization only — whitespace trimming, leading-`@` stripping,
and the homeserver-qualified prefix form — compared case-sensitively.
For any such match `do_login` sets the already-logged-in error, reports
the backend as never called, and leaves accounts, saved sessions and
favorites unchanged. -/
theorem duplicate_login_rejected
    (backend : Except String (Account × String)) (rooms : List RoomInfo) (st : App)
    (h : ∃ a ∈ st.accounts,
      a.user_id = "@" ++ trimStr st.login_username ++ ":" ++ trimStr st.login_homeserver
        ∨ a.user_id = "@" ++ stripAtSigns (trimStr st.login_username) ++ ":"
            ++ trimStr st.login_homeserver
        ∨ a.user_id = trimStr st.login_username
        ∨ (a.homeserver = trimStr st.login_homeserver
            ∧ startsWithStr a.user_id
                ("@" ++ stripAtSigns (trimStr st.login_username) ++ ":") = true)) :
    (do_login backend rooms st).2 = false
      ∧ (do_login backend rooms st).1.accounts = st.accounts
      ∧ (do_login backend rooms st).1.config_saved = st.config_saved
      ∧ (do_login backend rooms st).1.config_favorites = st.config_favorites
      ∧ (do_login backend rooms st).1.login_error
          = some "Already logged in — use Verify Session to recover E2EE keys"
      ∧ (do_login backend rooms st).1.login_busy = false := by
  have hdup : duplicateLogin st.accounts (trimStr st.login_username)
      (trimStr st.login_homeserver) = true := by
    unfold duplicateLogin
    rw [List.any_eq_true]
    obtain ⟨a, ha, hcase⟩ := h
    refine ⟨a, ha, ?_⟩
    simp only [Bool.or_eq_true, Bool.and_eq_true, decide_eq_true_eq]
    rcases hcase with h1 | h2 | h3 | ⟨h4a, h4b⟩
    · tauto
    · tauto
    · tauto
    · tauto
  unfold do_login
  dsimp only
  rw [if_pos hdup]
  exact ⟨rfl, rfl, rfl, rfl, rfl, rfl⟩

/-- Witness for C7: the exact-format duplicate attempt is rejected
without touching the backend or the account list. -/
theorem duplicate_login_rejected_witness :
    (do_login (.ok ({ user_id := "@alice:hs", homeserver := "hs" }, "s"))
        [] dupExactApp).2 = false
      ∧ (do_login (.ok ({ user_id := "@alice:hs", homeserver := "hs" }, "s"))
          [] dupExactApp).1.accounts = dupExactApp.accounts
      ∧ (do_login (.ok ({ user_id := "@alice:hs", homeserver := "hs" }, "s"))
          [] dupExactApp).1.config_saved = dupExactApp.config_saved
      ∧ (do_login (.ok ({ user_id := "@alice:hs", homeserver := "hs" }, "s"))
          [] dupExactApp).1.config_favorites = dupExactApp.config_favorites
      ∧ (do_login (.ok ({ user_id := "@alice:hs", homeserver := "hs" }, "s"))
          [] dupExactApp).1.login_error
          = some "Already logged in — use Verify Session to recover E2EE keys"
      ∧ (do_login (.ok ({ user_id := "@alice:hs", homeserver := "hs" }, "s"))
          [] dupExactApp).1.login_busy = false :=
  duplicate_login_rejected (.ok ({ user_id := "@alice:hs", homeserver := "hs" }, "s"))
    [] dupExactApp
    ⟨{ user_id := "@alice:hs", homeserver := "hs" }, by decide, by decide⟩

/-! ### Comparator laws for the room sort (C6) -/

theorem ordering_isLE_iff (o : Ordering) : o.isLE = true ↔ o = .lt ∨ o = .eq := by
  cases o <;> decide

theorem then_swap (o1 o2 : Ordering) : (o1.then o2).swap = o1.swap.then o2.swap := by
  cases o1 <;> rfl

theorem then_isLE_iff (o p : Ordering) :
    (o.then p).isLE = true ↔ o = .lt ∨ (o = .eq ∧ p.isLE = true) := by
  cases o <;> simp [Ordering.then, Ordering.isLE]

theorem natCmp_swap (a b : Nat) : natCmp b a = (natCmp a b).swap := by
  unfold natCmp
  split_ifs <;> first | rfl | omega

theorem natCmp_eq_lt {a b : Nat} : natCmp a b = .lt ↔ a < b := by
  unfold natCmp
  split_ifs <;> simp <;> omega

theorem natCmp_eq_eq {a b : Nat} : natCmp a b = .eq ↔ a = b := by
  unfold natCmp
  split_ifs <;> simp <;> omega

theorem natCmp_eq_gt {a b : Nat} : natCmp a b = .gt ↔ b < a := by
  unfold natCmp
  split_ifs <;> simp <;> omega

theorem charListCmp_swap : ∀ (as bs : List Char),
    charListCmp bs as = (charListCmp as bs).swap
  | [], [] => rfl
  | [], _ :: _ => rfl
  | _ :: _, [] => rfl
  | a :: as, b :: bs => by
    show (natCmp b.toNat a.toNat).then (charListCmp bs as)
      = ((natCmp a.toNat b.toNat).then (charListCmp as bs)).swap
    rw [then_swap, ← natCmp_swap, charListCmp_swap as bs]

theorem charListCmp_eq_eq : ∀ (as bs : List Char),
    charListCmp as bs = .eq ↔ as = bs
  | [], [] => by simp [charListCmp]
  | [], _ :: _ => by simp [charListCmp]
  | _ :: _, [] => by simp [charListCmp]
  | a :: as, b :: bs => by
    show (natCmp a.toNat b.toNat).then (charListCmp as bs) = .eq ↔ _
    cases h : natCmp a.toNat b.toNat with
    | lt =>
      simp only [Ordering.then]
      constructor
      · intro hx
        exact absurd hx (by decide)
      · intro heq
        injection heq with h1 _
        rw [h1, natCmp_eq_lt] at h
        omega
    | gt =>
      simp only [Ordering.then]
      constructor
      · intro hx
        exact absurd hx (by decide)
      · intro heq
        injection heq with h1 _
        rw [h1, natCmp_eq_gt] at h
        omega
    | eq =>
      have hab : a = b :=
        Char.eq_of_val_eq (UInt32.ext (natCmp_eq_eq.mp h))
      subst hab
      simp only [Ordering.then, List.cons.injEq, true_and]
      exact charListCmp_eq_eq as bs

theorem charListCmp_lt_trans : ∀ (as bs cs : List Char),
    charListCmp as bs = .lt → charListCmp bs cs = .lt → charListCmp as cs = .lt
  | [], [], _ => by intro h _; exact absurd h (by simp [charListCmp])
  | [], _ :: _, [] => by intro _ h; exact absurd h (by simp [charListCmp])
  | [], _ :: _, _ :: _ => by intro _ _; simp [charListCmp]
  | _ :: _, [], _ => by intro h _; exact absurd h (by simp [charListCmp])
  | _ :: _, _ :: _, [] => by intro _ h; exact absurd h (by simp [charListCmp])
  | a :: as, b :: bs, c :: cs => by
    show (natCmp a.toNat b.toNat).then (charListCmp as bs) = .lt →
      (natCmp b.toNat c.toNat).then (charListCmp bs cs) = .lt →
      (natCmp a.toNat c.toNat).then (charListCmp as cs) = .lt
    intro h1 h2
    cases hab : natCmp a.toNat b.toNat with
    | gt => rw [hab] at h1; simp [Ordering.then] at h1
    | lt =>
      cases hbc : natCmp b.toNat c.toNat with
      | gt => rw [hbc] at h2; simp [Ordering.then] at h2
      | lt =>
        rw [natCmp_eq_lt] at hab hbc
        rw [natCmp_eq_lt.mpr (by omega : a.toNat < c.toNat)]
        rfl
      | eq =>
        rw [natCmp_eq_lt] at hab
        rw [natCmp_eq_eq] at hbc
        rw [natCmp_eq_lt.mpr (by omega : a.toNat < c.toNat)]
        rfl
    | eq =>
      rw [hab] at h1
      have h1s : charListCmp as bs = .lt := h1
      cases hbc : natCmp b.toNat c.toNat with
      | gt => rw [hbc] at h2; simp [Ordering.then] at h2
      | lt =>
        rw [natCmp_eq_eq] at hab
        rw [natCmp_eq_lt] at hbc
        rw [natCmp_eq_lt.mpr (by omega : a.toNat < c.toNat)]
        rfl
      | eq =>
        rw [hbc] at h2
        have h2s : charListCmp bs cs = .lt := h2
        rw [natCmp_eq_eq] at hab hbc
        rw [natCmp_eq_eq.mpr (by omega : a.toNat = c.toNat)]
        show charListCmp as cs = .lt
        exact charListCmp_lt_trans as bs cs h1s h2s

theorem strCmp_isLE_trans (x y z : String)
    (h1 : (strCmp x y).isLE = true) (h2 : (strCmp y z).isLE = true) :
    (strCmp x z).isLE = true := by
  unfold strCmp at h1 h2 ⊢
  rw [ordering_isLE_iff] at h1 h2 ⊢
  rcases h1 with h1 | h1 <;> rcases h2 with h2 | h2
  · exact Or.inl (charListCmp_lt_trans _ _ _ h1 h2)
  · rw [charListCmp_eq_eq] at h2
    rw [h2] at h1
    exact Or.inl h1
  · rw [charListCmp_eq_eq] at h1
    rw [← h1] at h2
    exact Or.inl h2
  · rw [charListCmp_eq_eq] at h1 h2
    exact Or.inr ((charListCmp_eq_eq _ _).mpr (h1.trans h2))

theorem strCmp_isLE_total (x y : String) :
    ((strCmp x y).isLE || (strCmp y x).isLE) = true := by
  unfold strCmp
  rw [charListCmp_swap x.data y.data]
  cases h : charListCmp x.data y.data <;>
    simp [h, Ordering.swap, Ordering.isLE]

theorem natStrLex_isLE_trans (x1 x2 x3 : Nat) (s1 s2 s3 : String)
    (h1 : ((natCmp x2 x1).then (strCmp s1 s2)).isLE = true)
    (h2 : ((natCmp x3 x2).then (strCmp s2 s3)).isLE = true) :
    ((natCmp x3 x1).then (strCmp s1 s3)).isLE = true := by
  rw [then_isLE_iff] at h1 h2 ⊢
  rcases h1 with h1 | ⟨h1, h1s⟩ <;> rcases h2 with h2 | ⟨h2, h2s⟩
  · rw [natCmp_eq_lt] at h1 h2
    exact Or.inl (natCmp_eq_lt.mpr (by omega))
  · rw [natCmp_eq_lt] at h1
    rw [natCmp_eq_eq] at h2
    exact Or.inl (natCmp_eq_lt.mpr (by omega))
  · rw [natCmp_eq_eq] at h1
    rw [natCmp_eq_lt] at h2
    exact Or.inl (natCmp_eq_lt.mpr (by omega))
  · rw [natCmp_eq_eq] at h1 h2
    exact Or.inr ⟨natCmp_eq_eq.mpr (by omega), strCmp_isLE_trans s1 s2 s3 h1s h2s⟩

theorem natStrLex_isLE_total (x1 x2 : Nat) (s1 s2 : String) :
    (((natCmp x2 x1).then (strCmp s1 s2)).isLE
      || ((natCmp x1 x2).then (strCmp s2 s1)).isLE) = true := by
  rcases Nat.lt_trichotomy x1 x2 with h | h | h
  · rw [Bool.or_eq_true]
    right
    rw [then_isLE_iff]
    exact Or.inl (natCmp_eq_lt.mpr h)
  · rw [Bool.or_eq_true]
    have htot := strCmp_isLE_total s1 s2
    rw [Bool.or_eq_true] at htot
    rcases htot with hs | hs
    · left
      rw [then_isLE_iff]
      exact Or.inr ⟨natCmp_eq_eq.mpr h.symm, hs⟩
    · right
      rw [then_isLE_iff]
      exact Or.inr ⟨natCmp_eq_eq.mpr h, hs⟩
  · rw [Bool.or_eq_true]
    left
    rw [then_isLE_iff]
    exact Or.inl (natCmp_eq_lt.mpr h)

theorem roomLe_trans (mode : RoomSortMode) (cache : String → List DisplayMessage)
    (a b c : RoomInfo) (h1 : roomLe mode cache a b = true)
    (h2 : roomLe mode cache b c = true) : roomLe mode cache a c = true := by
  cases mode <;> simp only [roomLe, roomCmp] at h1 h2 ⊢
  · exact natStrLex_isLE_trans _ _ _ _ _ _ h1 h2
  · exact natStrLex_isLE_trans _ _ _ _ _ _ h1 h2
  · exact strCmp_isLE_trans _ _ _ h1 h2

theorem roomLe_total (mode : RoomSortMode) (cache : String → List DisplayMessage)
    (a b : RoomInfo) : (roomLe mode cache a b || roomLe mode cache b a) = true := by
  cases mode <;> simp only [roomLe, roomCmp]
  · exact natStrLex_isLE_total _ _ _ _
  · exact natStrLex_isLE_total _ _ _ _
  · exact strCmp_isLE_total _ _

/-! ### Favorites extraction lemmas (C6) -/

theorem removeFirst_eq_none {α} (p : α → Bool) :
    ∀ (l : List α), removeFirst p l = none ↔ ∀ x ∈ l, p x = false
  | [] => by simp [removeFirst]
  | x :: xs => by
    unfold removeFirst
    by_cases h : p x = true
    · simp [h]
    · have hx : p x = false := by revert h; cases p x <;> simp
      simp [hx, Option.map_eq_none', removeFirst_eq_none p xs]

theorem removeFirst_some {α} (p : α → Bool) :
    ∀ (l : List α) (x : α) (rest : List α), removeFirst p l = some (x, rest) →
      p x = true ∧ ∃ l1 l2, l = l1 ++ x :: l2 ∧ rest = l1 ++ l2
  | [], x, rest => by simp [removeFirst]
  | a :: as, x, rest => by
    unfold removeFirst
    by_cases h : p a = true
    · rw [if_pos h]
      intro he
      injection he with hpair
      rw [Prod.ext_iff] at hpair
      obtain ⟨h1, h2⟩ := hpair
      dsimp only at h1 h2
      subst h1
      subst h2
      exact ⟨h, [], as, rfl, rfl⟩
    · rw [if_neg h]
      intro he
      rw [Option.map_eq_some'] at he
      obtain ⟨⟨x2, rest2⟩, hrec, heq⟩ := he
      rw [Prod.ext_iff] at heq
      obtain ⟨h1, h2⟩ := heq
      dsimp only at h1 h2
      obtain ⟨hp, l1, l2, hl, hr⟩ := removeFirst_some p as x2 rest2 hrec
      subst h1
      refine ⟨hp, a :: l1, l2, ?_, ?_⟩
      · rw [hl]
        rfl
      · rw [← h2, hr]
        rfl

theorem removeFirst_perm {α} (p : α → Bool) {l : List α} {x : α} {rest : List α}
    (h : removeFirst p l = some (x, rest)) : l.Perm (x :: rest) := by
  obtain ⟨_, l1, l2, rfl, rfl⟩ := removeFirst_some p l x rest h
  exact List.perm_middle

theorem extractFavs_perm : ∀ (favs : List String) (all : List RoomInfo),
    ((extractFavs favs all).1 ++ (extractFavs favs all).2).Perm all
  | [], all => by simp [extractFavs]
  | f :: fs, all => by
    unfold extractFavs
    cases h : removeFirst (fun r => r.id = f) all with
    | none => exact extractFavs_perm fs all
    | some pr =>
      obtain ⟨r, rest⟩ := pr
      dsimp only
      have hp : all.Perm (r :: rest) := removeFirst_perm _ h
      exact ((extractFavs_perm fs rest).cons r).trans hp.symm

theorem extractFavs_ids : ∀ (favs : List String) (all : List RoomInfo),
    favs.Nodup →
    (extractFavs favs all).1.map RoomInfo.id
      = favs.filter (fun f => decide (f ∈ all.map RoomInfo.id))
  | [], all => by simp [extractFavs]
  | f :: fs, all => by
    intro hnd
    have hf : f ∉ fs := (List.nodup_cons.mp hnd).1
    have hfs : fs.Nodup := (List.nodup_cons.mp hnd).2
    unfold extractFavs
    cases h : removeFirst (fun r => r.id = f) all with
    | none =>
      have hmem : f ∉ all.map RoomInfo.id := by
        rw [removeFirst_eq_none] at h
        intro hx
        obtain ⟨r, hr, hid⟩ := List.mem_map.mp hx
        have hfalse := h r hr
        simp [hid] at hfalse
      rw [List.filter_cons, if_neg (by simpa using hmem)]
      exact extractFavs_ids fs all hfs
    | some pr =>
      obtain ⟨r, rest⟩ := pr
      dsimp only
      obtain ⟨hpr, l1, l2, hall, hrest⟩ := removeFirst_some _ all r rest h
      have hrid : r.id = f := by simpa using hpr
      have hfmem : f ∈ all.map RoomInfo.id :=
        List.mem_map.mpr ⟨r, by simp [hall], hrid⟩
      rw [List.filter_cons, if_pos (by simpa using hfmem)]
      simp only [List.map_cons, hrid]
      congr 1
      rw [extractFavs_ids fs rest hfs]
      apply List.filter_congr
      intro g hg
      have hgf : g ≠ f := fun he => hf (he ▸ hg)
      rw [decide_eq_decide]
      subst hall
      subst hrest
      simp [hrid, hgf]

/-- C6: `refresh_rooms` output is the extracted favorites followed by
the sorted remainder; the extracted favorites carry exactly the
configured favorite ids that exist among the fetched rooms, in
configured order; favorites plus remainder are a permutation of the
fetched rooms; and the remainder is a permutation of the non-favorite
rooms, pairwise ordered by the active mode comparator (unread count
descending / last-message timestamp descending / name ascending, ties
by lowercased name). -/
theorem favorites_first_ordering (st : App) (all : List RoomInfo)
    (hfav : st.config_favorites.Nodup) :
    (refresh_rooms all st).all_rooms
        = (extractFavs st.config_favorites all).1
          ++ sort_rooms st.room_sort st.room_messages (extractFavs st.config_favorites all).2
      ∧ (refresh_rooms all st).favorites_count
          = (extractFavs st.config_favorites all).1.length
      ∧ (extractFavs st.config_favorites all).1.map RoomInfo.id
          = st.config_favorites.filter (fun f => decide (f ∈ all.map RoomInfo.id))
      ∧ ((extractFavs st.config_favorites all).1
          ++ (extractFavs st.config_favorites all).2).Perm all
      ∧ (sort_rooms st.room_sort st.room_messages
          (extractFavs st.config_favorites all).2).Perm
          (extractFavs st.config_favorites all).2
      ∧ List.Pairwise (fun a b => roomLe st.room_sort st.room_messages a b = true)
          (sort_rooms st.room_sort st.room_messages
            (extractFavs st.config_favorites all).2) :=
  ⟨rfl, rfl, extractFavs_ids st.config_favorites all hfav,
   extractFavs_perm st.config_favorites all,
   List.mergeSort_perm _ _,
   List.sorted_mergeSort
     (fun a b c => roomLe_trans st.room_sort st.room_messages a b c)
     (fun a b => roomLe_total st.room_sort st.room_messages a b) _⟩

/-- Rooms for the C6 witness scenario: unread counts [3, 0, 7] and a
configured favorite. -/
def roomA : RoomInfo :=
  { id := "!a", name := "bbb", is_dm := false, unread := 3, account_id := "@u:hs" }

/-- The favorite room of the C6 witness (unread 0, so favorites-first
overrides the unread order). -/
def roomF : RoomInfo :=
  { id := "!f", name := "fav", is_dm := false, unread := 0, account_id := "@u:hs" }

/-- Highest-unread room of the C6 witness. -/
def roomC : RoomInfo :=
  { id := "!c", name := "aaa", is_dm := false, unread := 7, account_id := "@u:hs" }

/-- State with favorite list `["!f"]` and unread sort mode. -/
def favApp : App :=
  { chatApp with
    config_favorites := ["!f"]
    room_sort := RoomSortMode.unread }

/-- Witness for C6 at the concrete scenario: favorite `!f` first
despite unread 0, remainder sorted by unread descending. -/
theorem favorites_first_ordering_witness :
    (refresh_rooms [roomA, roomF, roomC] favApp).all_rooms
        = (extractFavs favApp.config_favorites [roomA, roomF, roomC]).1
          ++ sort_rooms favApp.room_sort favApp.room_messages
            (extractFavs favApp.config_favorites [roomA, roomF, roomC]).2
      ∧ (refresh_rooms [roomA, roomF, roomC] favApp).favorites_count
          = (extractFavs favApp.config_favorites [roomA, roomF, roomC]).1.length
      ∧ (extractFavs favApp.config_favorites [roomA, roomF, roomC]).1.map RoomInfo.id
          = favApp.config_favorites.filter
              (fun f => decide (f ∈ [roomA, roomF, roomC].map RoomInfo.id))
      ∧ ((extractFavs favApp.config_favorites [roomA, roomF, roomC]).1
          ++ (extractFavs favApp.config_favorites [roomA, roomF, roomC]).2).Perm
            [roomA, roomF, roomC]
      ∧ (sort_rooms favApp.room_sort favApp.room_messages
          (extractFavs favApp.config_favorites [roomA, roomF, roomC]).2).Perm
            (extractFavs favApp.config_favorites [roomA, roomF, roomC]).2
      ∧ List.Pairwise (fun a b => roomLe favApp.room_sort favApp.room_messages a b = true)
          (sort_rooms favApp.room_sort favApp.room_messages
            (extractFavs favApp.config_favorites [roomA, roomF, roomC]).2) :=
  favorites_first_ordering favApp [roomA, roomF, roomC] (by decide)

end Matrixtui
